import Mathlib

/-!
Shallow embedding of the disk-queue reader (`nsqd/diskqueue_reader.go`):
the offset algebra (`stepOffset`), the control-operation handlers of the
I/O engine (`internalConfirm`, `internalSkipTo`, `checkTailCorruption`,
the queue-end update and the readiness decision of `ioLoop`), the
metadata persistence pair, the public-operation exit gates and the
constructor.  Filesystem `Stat` calls are modelled by an explicit
file-size environment `FS`; machine `int64` values are modelled as `Int`
(no arithmetic in the modelled paths ever wraps in the source's intended
operating range, and the source performs no explicit modular reduction).
-/

/-- Mirrors Go struct `diskQueueOffset` (fields `FileNum`, `Pos`, both `int64`). -/
structure diskQueueOffset where
  fileNum : Int
  pos : Int
deriving DecidableEq, Repr

/-- Mirrors Go method `(*diskQueueOffset).GreatThan`: `FileNum` compared first,
`Pos` compared only at equal `FileNum`. -/
def diskQueueOffset.greatThan (d o : diskQueueOffset) : Bool :=
  if d.fileNum > o.fileNum then true
  else if d.fileNum = o.fileNum ∧ d.pos > o.pos then true
  else false

/-- Lexicographic strict order on `(fileNum, pos)`, the order the spec's
claims use. -/
def lexLt (a b : diskQueueOffset) : Prop :=
  a.fileNum < b.fileNum ∨ (a.fileNum = b.fileNum ∧ a.pos < b.pos)

/-- Lexicographic non-strict order on `(fileNum, pos)`. -/
def lexLe (a b : diskQueueOffset) : Prop :=
  a.fileNum < b.fileNum ∨ (a.fileNum = b.fileNum ∧ a.pos ≤ b.pos)

instance (a b : diskQueueOffset) : Decidable (lexLt a b) :=
  inferInstanceAs (Decidable (_ ∨ _))

instance (a b : diskQueueOffset) : Decidable (lexLe a b) :=
  inferInstanceAs (Decidable (_ ∨ _))

/-- The error values the embedded code distinguishes.  `confirmSizeInvalid`,
`moveOffsetInvalid` and `offsetTypeMismatch` mirror the three named Go errors;
`offsetInvalid` stands for the anonymous `fmt.Errorf("offset invalid…")`
failures of `stepOffset`; `statError` stands for an `os.Stat` failure inside
`getCurrentFileEnd`; `fuelExhausted` is an artifact of the bounded model of
the `stepOffset` loop and is proved unreachable below. -/
inductive DQErr where
  | confirmSizeInvalid
  | moveOffsetInvalid
  | offsetTypeMismatch
  | offsetInvalid
  | statError
  | fuelExhausted
deriving DecidableEq, Repr

/-- File-size environment: `fs n` is the size `os.Stat` reports for data file
`n`, or `none` when the stat fails. -/
def FS : Type := Int → Option Int

/-- Mirrors `getCurrentFileEnd`: stat the file holding `offset` and return its
size. -/
def getCurrentFileEnd (fs : FS) (offset : diskQueueOffset) : Except DQErr Int :=
  match fs offset.fileNum with
  | some sz => .ok sz
  | none => .error .statError

/-- The per-iteration end bound of the `stepOffset` loop.  In the Go source the
guard is `cur.FileNum < maxStep.FileNum` where `cur` is the *original* argument
(never mutated inside the loop), so it is a per-call constant `useFs`; the file
statted is the current `newOffset`. -/
def fileEndFor (fs : FS) (useFs : Bool) (maxStep : diskQueueOffset)
    (o : diskQueueOffset) : Except DQErr Int :=
  if useFs then getCurrentFileEnd fs o else .ok maxStep.pos

/-- The `for` loop of `stepOffset`, fuelled.  Each non-returning iteration
rolls into the next file, so `maxStep.fileNum - cur.fileNum + 1` iterations
always suffice (`stepOffsetLoop_no_fuelExhausted` below). -/
def stepOffsetLoop (fs : FS) (useFs : Bool) (maxStep : diskQueueOffset) :
    Nat → diskQueueOffset → Int → Except DQErr diskQueueOffset
  | 0, _, _ => .error .fuelExhausted
  | fuel+1, o, step =>
    match fileEndFor fs useFs maxStep o with
    | .error e => .error e
    | .ok endSize =>
      let diff := endSize - o.pos
      if diff < step then
        let rolled : diskQueueOffset := ⟨o.fileNum + 1, 0⟩
        if rolled.greatThan maxStep then .error .offsetInvalid
        else if step - diff = 0 then .ok rolled
        else stepOffsetLoop fs useFs maxStep fuel rolled (step - diff)
      else
        let moved : diskQueueOffset := ⟨o.fileNum, o.pos + step⟩
        if moved.greatThan maxStep then .error .offsetInvalid
        else .ok moved

/-- Mirrors `(*diskQueueReader).stepOffset(cur, step, maxStep)`: reject
`cur.FileNum > maxStep.FileNum`, short-circuit a zero step, otherwise run the
loop. -/
def stepOffset (fs : FS) (cur : diskQueueOffset) (step : Int)
    (maxStep : diskQueueOffset) : Except DQErr diskQueueOffset :=
  if cur.fileNum > maxStep.fileNum then .error .offsetInvalid
  else if step = 0 then .ok cur
  else stepOffsetLoop fs (decide (cur.fileNum < maxStep.fileNum)) maxStep
    ((maxStep.fileNum - cur.fileNum).toNat + 1) cur step

/-- Mirrors Go struct `diskQueueEndInfo`. -/
structure diskQueueEndInfo where
  endFileNum : Int
  endPos : Int
  virtualEnd : Int
  totalMsgCnt : Int
deriving DecidableEq, Repr

/-- The mutable reader state of `diskQueueReader` that the embedded operations
touch.  `readFileOpen` abstracts the `readFile *os.File` handle (open or nil);
`maxConfirmWin` is carried in the state exactly as in the struct. -/
structure ReaderState where
  readPos : diskQueueOffset
  endPos : diskQueueOffset
  virtualReadOffset : Int
  virtualEnd : Int
  totalMsgCnt : Int
  confirmedOffset : diskQueueOffset
  virtualConfirmedOffset : Int
  needSync : Bool
  readFileOpen : Bool
  maxConfirmWin : Int
  exitFlag : Bool
deriving DecidableEq, Repr

/-- Mirrors `internalConfirm`.  Returns the Go error (or `none`) together with
the post-state; every early `return` leaves the state exactly as received. -/
def internalConfirm (fs : FS) (s : ReaderState) (offset : Int) :
    Option DQErr × ReaderState :=
  if offset = -1 then
    (none, { s with confirmedOffset := s.readPos,
                    virtualConfirmedOffset := s.virtualReadOffset })
  else if offset ≤ s.virtualConfirmedOffset then
    (none, s)
  else if offset > s.virtualReadOffset then
    (some .confirmSizeInvalid, s)
  else
    match stepOffset fs s.confirmedOffset (offset - s.virtualConfirmedOffset) s.readPos with
    | .error _ => (some .confirmSizeInvalid, s)
    | .ok newConfirm =>
      (none, { s with confirmedOffset := newConfirm,
                      virtualConfirmedOffset := offset })

/-- Mirrors `internalSkipTo`.  The open data file is closed first; a target
beyond `virtualEnd` or a failed step returns with no offset field changed. -/
def internalSkipTo (fs : FS) (s : ReaderState) (voffset : Int) :
    Option DQErr × ReaderState :=
  let s0 := { s with readFileOpen := false }
  if voffset > s0.virtualEnd then
    (some .moveOffsetInvalid, s0)
  else if voffset = s0.virtualEnd then
    (none, { s0 with readPos := s0.endPos, virtualReadOffset := voffset,
                     confirmedOffset := s0.endPos,
                     virtualConfirmedOffset := voffset })
  else
    match stepOffset fs s0.readPos (voffset - s0.virtualReadOffset) s0.endPos with
    | .error e => (some e, s0)
    | .ok newPos =>
      (none, { s0 with readPos := newPos, virtualReadOffset := voffset,
                       confirmedOffset := newPos,
                       virtualConfirmedOffset := voffset })

/-- Mirrors the `skipChan` case of `ioLoop`: run `internalSkipTo`, then clear
the held read error (`rerr = nil`) unconditionally before responding. -/
def skipHandler (fs : FS) (s : ReaderState) (voffset : Int)
    (_rerr : Option DQErr) : Option DQErr × ReaderState × Option DQErr :=
  let r := internalSkipTo fs s voffset
  (r.1, r.2, none)

/-- Mirrors `skipToEndofFile`: close the file, move both read and confirmed
positions to the queue end. -/
def skipToEndofFile (s : ReaderState) : ReaderState :=
  let s0 := { s with readFileOpen := false }
  let s1 := { s0 with readPos := s0.endPos, virtualReadOffset := s0.virtualEnd }
  { s1 with confirmedOffset := s1.readPos,
            virtualConfirmedOffset := s1.virtualReadOffset }

/-- Mirrors `checkTailCorruption`: early return when
`readPos.FileNum < endPos.FileNum || readPos.Pos < endPos.Pos`; otherwise a
read position different from the end forces a skip to the end of file and
marks `needSync`. -/
def checkTailCorruption (s : ReaderState) : ReaderState :=
  if s.readPos.fileNum < s.endPos.fileNum ∨ s.readPos.pos < s.endPos.pos then s
  else if s.readPos ≠ s.endPos then
    { skipToEndofFile s with needSync := true }
  else s

/-- Mirrors the delivery case `r <- dataRead` of `ioLoop`: the tail-corruption
check runs exactly when the delivered result carried no read error. -/
def deliveryHandler (rerr : Option DQErr) (s : ReaderState) : ReaderState :=
  if rerr = none then checkTailCorruption s else s

/-- Mirrors the readiness decision of `ioLoop` (the computation of the select
channel `r`): `nil` when the previous read attempt failed, `nil` when
`virtualConfirmedOffset + maxConfirmWin < virtualReadOffset`, otherwise armed
exactly when `readPos.FileNum < endPos.FileNum || readPos.Pos < endPos.Pos`. -/
def ioLoopReadyChan (rerr : Option DQErr) (s : ReaderState) : Bool :=
  if rerr ≠ none then false
  else if s.virtualConfirmedOffset + s.maxConfirmWin < s.virtualReadOffset then false
  else if s.readPos.fileNum < s.endPos.fileNum ∨ s.readPos.pos < s.endPos.pos then true
  else false

/-- Mirrors the `endUpdatedChan` case of `ioLoop`: bump the sync counter, mark
`needSync` on a fresh-file boundary, clamp `readPos` down to the new end, then
install the new end fields. -/
def updateQueueEndHandler (s : ReaderState) (count : Int)
    (e : diskQueueEndInfo) : ReaderState × Int :=
  let count1 := count + 1
  let s1 := if s.endPos.fileNum ≠ e.endFileNum ∧ e.endPos = 0 then
      { s with needSync := true } else s
  let s2 := if s1.readPos.fileNum > e.endFileNum then
      { s1 with readPos := ⟨e.endFileNum, e.endPos⟩,
                virtualReadOffset := e.virtualEnd } else s1
  let s3 := if s2.readPos.fileNum = e.endFileNum ∧ s2.readPos.pos > e.endPos then
      { s2 with readPos := ⟨s2.readPos.fileNum, e.endPos⟩,
                virtualReadOffset := e.virtualEnd } else s2
  ({ s3 with endPos := ⟨e.endFileNum, e.endPos⟩,
             totalMsgCnt := e.totalMsgCnt,
             virtualEnd := e.virtualEnd }, count1)

/-- The seven integers `persistMetaData` writes (format
`%d\n%d,%d,%d\n%d,%d,%d\n`) and `retrieveMetaData` scans back. -/
structure MetaData where
  totalMsgCnt : Int
  confirmedFileNum : Int
  confirmedPos : Int
  virtualConfirmedOffset : Int
  endFileNum : Int
  endFilePos : Int
  virtualEnd : Int
deriving DecidableEq, Repr

/-- Mirrors `persistMetaData`: the values written to the metadata file, in
file order. -/
def persistMetaData (s : ReaderState) : MetaData :=
  ⟨s.totalMsgCnt, s.confirmedOffset.fileNum, s.confirmedOffset.pos,
   s.virtualConfirmedOffset, s.endPos.fileNum, s.endPos.pos, s.virtualEnd⟩

/-- Mirrors `retrieveMetaData`: scan the seven fields into the state, then
seed `readPos`/`virtualReadOffset` from the confirmed fields. -/
def retrieveMetaData (m : MetaData) (s : ReaderState) : ReaderState :=
  let s1 := { s with totalMsgCnt := m.totalMsgCnt,
                     confirmedOffset := ⟨m.confirmedFileNum, m.confirmedPos⟩,
                     virtualConfirmedOffset := m.virtualConfirmedOffset,
                     endPos := ⟨m.endFileNum, m.endFilePos⟩,
                     virtualEnd := m.virtualEnd }
  { s1 with readPos := s1.confirmedOffset,
            virtualReadOffset := s1.virtualConfirmedOffset }

/-- The instantiation-time configuration fields of `diskQueueReader`. -/
structure ReaderConfig where
  readFrom : String
  readerMetaName : String
  dataPath : String
  maxBytesPerFile : Int
  minMsgSize : Int
  maxMsgSize : Int
  syncEvery : Int
  syncTimeoutNs : Int
  autoSkipError : Bool
deriving DecidableEq, Repr

/-- The Go zero value of the mutable reader state (all offsets zero, flags
false), before the constructor's field assignments run. -/
def zeroReaderState : ReaderState :=
  { readPos := ⟨0, 0⟩, endPos := ⟨0, 0⟩, virtualReadOffset := 0,
    virtualEnd := 0, totalMsgCnt := 0, confirmedOffset := ⟨0, 0⟩,
    virtualConfirmedOffset := 0, needSync := false, readFileOpen := false,
    maxConfirmWin := 0, exitFlag := false }

/-- Mirrors `newDiskQueueReader`: build the struct (in particular
`maxConfirmWin: BackendOffset(10000)`, a literal the caller cannot influence),
then load the metadata file when it exists. -/
def newDiskQueueReader (readFrom metaname dataPath : String)
    (maxBytesPerFile minMsgSize maxMsgSize syncEvery syncTimeoutNs : Int)
    (autoSkip : Bool) (meta : Option MetaData) : ReaderConfig × ReaderState :=
  let cfg : ReaderConfig :=
    { readFrom := readFrom, readerMetaName := metaname, dataPath := dataPath,
      maxBytesPerFile := maxBytesPerFile, minMsgSize := minMsgSize,
      maxMsgSize := maxMsgSize, syncEvery := syncEvery,
      syncTimeoutNs := syncTimeoutNs, autoSkipError := autoSkip }
  let s0 := { zeroReaderState with maxConfirmWin := 10000 }
  match meta with
  | none => (cfg, s0)
  | some m => (cfg, retrieveMetaData m s0)

/-- Observable outcome of a public operation's front end. -/
inductive GateOutcome where
  | exiting
  | forwarded
  | silentReturn
deriving DecidableEq, Repr

/-- Mirrors `ConfirmRead`: after the exit flag is set the call returns
`errors.New("exiting")` without touching the engine or the state. -/
def confirmReadGate (s : ReaderState) (_offset : Int) :
    GateOutcome × ReaderState :=
  if s.exitFlag then (.exiting, s) else (.forwarded, s)

/-- Mirrors `SkipReadToOffset`. -/
def skipReadToOffsetGate (s : ReaderState) (_offset : Int) :
    GateOutcome × ReaderState :=
  if s.exitFlag then (.exiting, s) else (.forwarded, s)

/-- Mirrors `SkipToEnd`. -/
def skipToEndGate (s : ReaderState) : GateOutcome × ReaderState :=
  if s.exitFlag then (.exiting, s) else (.forwarded, s)

/-- Mirrors `UpdateQueueEnd` (no error return value): after the exit flag is
set the call plainly returns — it reports nothing to the caller. -/
def updateQueueEndGate (s : ReaderState) (_e : diskQueueEndInfo) :
    GateOutcome × ReaderState :=
  if s.exitFlag then (.silentReturn, s) else (.forwarded, s)

/-- A file-size environment in which every data file has size 20 bytes. -/
def fsEx : FS := fun _ => some 20

/-- A reader state that has read 10 bytes of file 0, none confirmed. -/
def confirmStateEx : ReaderState :=
  { zeroReaderState with readPos := ⟨0, 10⟩, virtualReadOffset := 10 }

/-- A reader state whose queue end is 10 bytes into file 0. -/
def skipStateEx : ReaderState :=
  { zeroReaderState with endPos := ⟨0, 10⟩, virtualEnd := 10 }

/-- A reader state with `readPos` lexicographically beyond `endPos` but with a
smaller `pos` component. -/
def tailStateEx : ReaderState :=
  { zeroReaderState with readPos := ⟨5, 3⟩, endPos := ⟨3, 10⟩ }

/-- A reader state with both components of `readPos` beyond `endPos`. -/
def tailStateEx2 : ReaderState :=
  { zeroReaderState with readPos := ⟨2, 5⟩, endPos := ⟨1, 3⟩ }

/-- A reader state sitting exactly at the confirm window boundary:
`virtualReadOffset - virtualConfirmedOffset = maxConfirmWin`, with data left
to read. -/
def windowStateEx : ReaderState :=
  { zeroReaderState with virtualReadOffset := 10000, maxConfirmWin := 10000,
                         endPos := ⟨0, 1⟩ }

/-- A reader state whose exit flag has been set. -/
def exitStateEx : ReaderState := { zeroReaderState with exitFlag := true }

/- ### Helper lemmas -/

theorem bool_false_of_not_true {b : Bool} (h : ¬(b = true)) : b = false := by
  cases b
  · rfl
  · exact absurd rfl h

theorem greatThan_false_iff (d o : diskQueueOffset) :
    d.greatThan o = false ↔
      d.fileNum ≤ o.fileNum ∧ (d.fileNum = o.fileNum → d.pos ≤ o.pos) := by
  unfold diskQueueOffset.greatThan
  by_cases h1 : d.fileNum > o.fileNum
  · rw [if_pos h1]
    simp only [Bool.true_eq_false, false_iff]
    omega
  · rw [if_neg h1]
    by_cases h2 : d.fileNum = o.fileNum ∧ d.pos > o.pos
    · rw [if_pos h2]
      simp only [Bool.true_eq_false, false_iff]
      omega
    · rw [if_neg h2]
      simp only [true_iff]
      push_neg at h2
      omega

theorem fileEndFor_fileNum_congr (fs : FS) (u : Bool) (maxStep : diskQueueOffset)
    {a b : diskQueueOffset} (h : a.fileNum = b.fileNum) :
    fileEndFor fs u maxStep a = fileEndFor fs u maxStep b := by
  unfold fileEndFor getCurrentFileEnd
  rw [h]

theorem fileEndFor_error_eq {fs : FS} {u : Bool} {maxStep o : diskQueueOffset}
    {e : DQErr} (h : fileEndFor fs u maxStep o = .error e) : e = .statError := by
  unfold fileEndFor getCurrentFileEnd at h
  by_cases hu : u
  · rw [if_pos hu] at h
    cases hfs : fs o.fileNum with
    | some sz => rw [hfs] at h; exact absurd h (by simp)
    | none => rw [hfs] at h; cases h; rfl
  · rw [if_neg hu] at h
    exact absurd h (by simp)

/-- Results of the fuelled loop only improve with more fuel. -/
theorem stepOffsetLoop_mono (fs : FS) (u : Bool) (maxStep : diskQueueOffset) :
    ∀ (F₁ : Nat) {F₂ : Nat} {o : diskQueueOffset} {s : Int} {y : diskQueueOffset},
      F₁ ≤ F₂ → stepOffsetLoop fs u maxStep F₁ o s = .ok y →
      stepOffsetLoop fs u maxStep F₂ o s = .ok y := by
  intro F₁
  induction F₁ with
  | zero =>
    intro F₂ o s y hle h
    simp [stepOffsetLoop] at h
  | succ F ih =>
    intro F₂ o s y hle h
    obtain ⟨F₂', rfl⟩ : ∃ F₂', F₂ = F₂' + 1 := ⟨F₂ - 1, by omega⟩
    simp only [stepOffsetLoop] at h ⊢
    cases hE : fileEndFor fs u maxStep o with
    | error e =>
      rw [hE] at h
      exact absurd h (by simp)
    | ok endSize =>
      rw [hE] at h
      dsimp only at h ⊢
      by_cases hlt : endSize - o.pos < s
      · rw [if_pos hlt] at h ⊢
        by_cases hgt : ((⟨o.fileNum + 1, 0⟩ : diskQueueOffset).greatThan maxStep) = true
        · rw [if_pos hgt] at h
          exact absurd h (by simp)
        · rw [if_neg hgt] at h ⊢
          by_cases hz : s - (endSize - o.pos) = 0
          · rw [if_pos hz] at h ⊢
            exact h
          · rw [if_neg hz] at h ⊢
            exact ih (by omega) h
      · rw [if_neg hlt] at h ⊢
        exact h

/-- The fuelled loop is deterministic across fuels on successful results. -/
theorem stepOffsetLoop_det {fs : FS} {u : Bool} {maxStep : diskQueueOffset}
    {F₁ F₂ : Nat} {o : diskQueueOffset} {s : Int} {a b : diskQueueOffset}
    (h1 : stepOffsetLoop fs u maxStep F₁ o s = .ok a)
    (h2 : stepOffsetLoop fs u maxStep F₂ o s = .ok b) : a = b := by
  have h1' := @stepOffsetLoop_mono fs u maxStep F₁ (max F₁ F₂) o s a
    (Nat.le_max_left _ _) h1
  have h2' := @stepOffsetLoop_mono fs u maxStep F₂ (max F₁ F₂) o s b
    (Nat.le_max_right _ _) h2
  rw [h1'] at h2'
  exact Except.ok.inj h2'

/-- Faithfulness of the fuel bound: one iteration per file between the current
offset and `maxStep` always suffices, so the artificial `fuelExhausted` error
never surfaces. -/
theorem stepOffsetLoop_no_fuelExhausted (fs : FS) (u : Bool)
    (maxStep : diskQueueOffset) :
    ∀ (F : Nat) (o : diskQueueOffset) (s : Int),
      o.fileNum ≤ maxStep.fileNum → (maxStep.fileNum - o.fileNum).toNat < F →
      stepOffsetLoop fs u maxStep F o s ≠ .error .fuelExhausted := by
  intro F
  induction F with
  | zero =>
    intro o s hof hF
    omega
  | succ F ih =>
    intro o s hof hF
    simp only [stepOffsetLoop]
    cases hE : fileEndFor fs u maxStep o with
    | error e =>
      have := fileEndFor_error_eq hE
      simp [this]
    | ok endSize =>
      dsimp only
      by_cases hlt : endSize - o.pos < s
      · rw [if_pos hlt]
        by_cases hgt : ((⟨o.fileNum + 1, 0⟩ : diskQueueOffset).greatThan maxStep) = true
        · rw [if_pos hgt]
          simp
        · rw [if_neg hgt]
          by_cases hz : s - (endSize - o.pos) = 0
          · rw [if_pos hz]
            simp
          · rw [if_neg hz]
            have hle := ((greatThan_false_iff _ _).mp (bool_false_of_not_true hgt)).1
            dsimp at hle
            exact ih ⟨o.fileNum + 1, 0⟩ (s - (endSize - o.pos)) hle
              (by dsimp only; omega)
      · rw [if_neg hlt]
        by_cases hgt : ((⟨o.fileNum, o.pos + s⟩ : diskQueueOffset).greatThan maxStep) = true
        · rw [if_pos hgt]
          simp
        · rw [if_neg hgt]
          simp

/-- `stepOffset` never reports the artificial out-of-fuel error: the model's
bounded loop covers every run of the source's unbounded `for`. -/
theorem stepOffset_no_fuelExhausted (fs : FS) (cur : diskQueueOffset)
    (step : Int) (maxStep : diskQueueOffset) :
    stepOffset fs cur step maxStep ≠ .error .fuelExhausted := by
  unfold stepOffset
  by_cases hx : cur.fileNum > maxStep.fileNum
  · rw [if_pos hx]
    simp
  · rw [if_neg hx]
    by_cases h0 : step = 0
    · rw [if_pos h0]
      simp
    · rw [if_neg h0]
      exact stepOffsetLoop_no_fuelExhausted fs _ maxStep _ cur step (by omega)
        (by omega)

/- ### Claim theorems -/

/-- C1: `internalConfirm` handled case by case: offset `-1` confirms up to the
read position; an offset at or below `virtualConfirmedOffset` is a successful
no-op; an offset beyond `virtualReadOffset` fails with `ErrConfirmSizeInvalid`;
otherwise the confirmed position is stepped forward by
`offset - virtualConfirmedOffset` bytes bounded by `readPos`, failing with
`ErrConfirmSizeInvalid` when the step fails; every failing case leaves the
state unchanged. -/
theorem internalConfirm_spec (fs : FS) (s : ReaderState) (offset : Int) :
    (offset = -1 →
      internalConfirm fs s offset =
        (none, { s with confirmedOffset := s.readPos,
                        virtualConfirmedOffset := s.virtualReadOffset })) ∧
    (offset ≠ -1 → offset ≤ s.virtualConfirmedOffset →
      internalConfirm fs s offset = (none, s)) ∧
    (offset ≠ -1 → s.virtualConfirmedOffset < offset →
      s.virtualReadOffset < offset →
      internalConfirm fs s offset = (some .confirmSizeInvalid, s)) ∧
    (offset ≠ -1 → s.virtualConfirmedOffset < offset →
      offset ≤ s.virtualReadOffset →
      (∀ nc, stepOffset fs s.confirmedOffset (offset - s.virtualConfirmedOffset)
          s.readPos = .ok nc →
        internalConfirm fs s offset =
          (none, { s with confirmedOffset := nc,
                          virtualConfirmedOffset := offset })) ∧
      (∀ err, stepOffset fs s.confirmedOffset (offset - s.virtualConfirmedOffset)
          s.readPos = .error err →
        internalConfirm fs s offset = (some .confirmSizeInvalid, s))) := by
  refine ⟨?_, ?_, ?_, ?_⟩
  · intro h1
    unfold internalConfirm
    rw [if_pos h1]
  · intro h1 h2
    unfold internalConfirm
    rw [if_neg h1, if_pos h2]
  · intro h1 h2 h3
    unfold internalConfirm
    rw [if_neg h1, if_neg (by omega), if_pos h3]
  · intro h1 h2 h3
    constructor
    · intro nc hstep
      unfold internalConfirm
      rw [if_neg h1, if_neg (by omega), if_neg (by omega), hstep]
    · intro err hstep
      unfold internalConfirm
      rw [if_neg h1, if_neg (by omega), if_neg (by omega), hstep]

/-- C1 witness: a confirm of 5 bytes out of 10 read steps the confirmed
position to `(0, 5)`. -/
theorem internalConfirm_spec_witness :
    internalConfirm fsEx confirmStateEx 5 =
      (none, { confirmStateEx with confirmedOffset := ⟨0, 5⟩,
                                   virtualConfirmedOffset := 5 }) :=
  ((internalConfirm_spec fsEx confirmStateEx 5).2.2.2 (by decide) (by decide)
    (by decide)).1 ⟨0, 5⟩ rfl

/-- C2 counterexample: a negative byte count is not rejected — stepping by
`-5` from `(0, 10)` bounded by `(0, 20)` succeeds and moves the position
backward to `(0, 5)`, although `cur.fileNum ≤ max.fileNum` and `-5 < 0`. -/
theorem stepOffset_negative_counterexample :
    stepOffset fsEx ⟨0, 10⟩ (-5) ⟨0, 20⟩ = .ok ⟨0, 5⟩ ∧
    (⟨0, 10⟩ : diskQueueOffset).fileNum ≤ (⟨0, 20⟩ : diskQueueOffset).fileNum ∧
    (-5 : Int) < 0 :=
  ⟨rfl, by decide, by decide⟩

/-- C2 amended: a negative byte count `n` is accepted whenever the start and
the bound share a file and the start does not exceed the bound; the result is
the position moved `n` bytes backward in the same file, with no error. -/
theorem stepOffset_negative_moves_back (fs : FS) (f pos maxPos n : Int)
    (hpos : pos ≤ maxPos) (hn : n < 0) :
    stepOffset fs ⟨f, pos⟩ n ⟨f, maxPos⟩ = .ok ⟨f, pos + n⟩ := by
  unfold stepOffset
  rw [if_neg (show ¬((⟨f, pos⟩ : diskQueueOffset).fileNum >
      (⟨f, maxPos⟩ : diskQueueOffset).fileNum) by dsimp only; omega)]
  rw [if_neg (show ¬(n = 0) by omega)]
  rw [show (decide ((⟨f, pos⟩ : diskQueueOffset).fileNum <
      (⟨f, maxPos⟩ : diskQueueOffset).fileNum)) = false by
    dsimp only; exact decide_eq_false (by omega)]
  rw [show (((⟨f, maxPos⟩ : diskQueueOffset).fileNum -
      (⟨f, pos⟩ : diskQueueOffset).fileNum).toNat + 1) = 1 by dsimp only; simp]
  simp only [stepOffsetLoop]
  rw [show fileEndFor fs false ⟨f, maxPos⟩ ⟨f, pos⟩ = .ok maxPos from rfl]
  dsimp only
  rw [if_neg (show ¬(maxPos - pos < n) by omega)]
  rw [if_neg (show ¬((⟨f, pos + n⟩ : diskQueueOffset).greatThan
      ⟨f, maxPos⟩ = true) by
    simp only [Bool.not_eq_true]
    rw [greatThan_false_iff]
    dsimp only
    omega)]

/-- C2 witness for the amended claim: stepping by `-2` from `(3, 7)` bounded
by `(3, 9)` yields `(3, 5)`. -/
theorem stepOffset_negative_moves_back_witness :
    stepOffset fsEx ⟨3, 7⟩ (-2) ⟨3, 9⟩ = .ok ⟨3, 5⟩ :=
  stepOffset_negative_moves_back fsEx 3 7 9 (-2) (by decide) (by decide)

/-- C4 counterexample: at exactly `virtualReadOffset - virtualConfirmedOffset
= maxConfirmWin` the source still arms the output channel (the gate is the
strict comparison `virtualConfirmedOffset + maxConfirmWin <
virtualReadOffset`), while the claim demands it be unarmed as soon as the
difference is `≥ maxConfirmWin`. -/
theorem readyChan_window_boundary_counterexample :
    ioLoopReadyChan none windowStateEx = true ∧
    windowStateEx.virtualReadOffset - windowStateEx.virtualConfirmedOffset ≥
      windowStateEx.maxConfirmWin ∧
    lexLt windowStateEx.readPos windowStateEx.endPos := by
  refine ⟨rfl, by decide, by decide⟩

/-- C4 amended: the output channel is armed iff the previous read attempt did
not fail, `virtualReadOffset - virtualConfirmedOffset ≤ maxConfirmWin` (the
window blocks only when strictly exceeded), and
`readPos.fileNum < endPos.fileNum ∨ readPos.pos < endPos.pos`; under the
invariant `readPos ≤ endPos` the last condition coincides with the claim's
lexicographic `readPos < endPos`. -/
theorem readyChan_armed_iff (rerr : Option DQErr) (s : ReaderState) :
    (ioLoopReadyChan rerr s = true ↔
      rerr = none ∧
      s.virtualReadOffset - s.virtualConfirmedOffset ≤ s.maxConfirmWin ∧
      (s.readPos.fileNum < s.endPos.fileNum ∨ s.readPos.pos < s.endPos.pos)) ∧
    (lexLe s.readPos s.endPos →
      (ioLoopReadyChan rerr s = true ↔
        rerr = none ∧
        s.virtualReadOffset - s.virtualConfirmedOffset ≤ s.maxConfirmWin ∧
        lexLt s.readPos s.endPos)) := by
  have main : ioLoopReadyChan rerr s = true ↔
      rerr = none ∧
      s.virtualReadOffset - s.virtualConfirmedOffset ≤ s.maxConfirmWin ∧
      (s.readPos.fileNum < s.endPos.fileNum ∨ s.readPos.pos < s.endPos.pos) := by
    unfold ioLoopReadyChan
    cases rerr with
    | some e => simp
    | none =>
      rw [if_neg (show ¬((none : Option DQErr) ≠ none) by simp)]
      by_cases h1 : s.virtualConfirmedOffset + s.maxConfirmWin < s.virtualReadOffset
      · rw [if_pos h1]
        refine iff_of_false (by simp) fun h => ?_
        obtain ⟨-, h2, -⟩ := h
        omega
      · rw [if_neg h1]
        by_cases h2 : s.readPos.fileNum < s.endPos.fileNum ∨ s.readPos.pos < s.endPos.pos
        · rw [if_pos h2]
          exact iff_of_true rfl ⟨rfl, by omega, h2⟩
        · rw [if_neg h2]
          exact iff_of_false (by simp) fun h => h2 h.2.2
  refine ⟨main, fun hle => main.trans ?_⟩
  refine and_congr_right fun _ => and_congr_right fun _ => ?_
  unfold lexLe at hle
  unfold lexLt
  omega

/-- C4 witness for the amended claim: in the all-zero state (read position at
the end) the channel is unarmed and the characterization applies. -/
theorem readyChan_armed_iff_witness :
    ioLoopReadyChan none zeroReaderState = true ↔
      (none : Option DQErr) = none ∧
      zeroReaderState.virtualReadOffset -
        zeroReaderState.virtualConfirmedOffset ≤
        zeroReaderState.maxConfirmWin ∧
      lexLt zeroReaderState.readPos zeroReaderState.endPos :=
  (readyChan_armed_iff none zeroReaderState).2 (by decide)

/-- C5 counterexample: in a state with `readPos = (5,3)` lexicographically
beyond `endPos = (3,10)` and unequal to it, the claim demands the tail check
force `readPos = endPos`, but the source's guard
`readPos.FileNum < endPos.FileNum || readPos.Pos < endPos.Pos` returns early
(because `3 < 10`) and the state is left unchanged. -/
theorem checkTailCorruption_counterexample :
    lexLe tailStateEx.endPos tailStateEx.readPos ∧
    tailStateEx.readPos ≠ tailStateEx.endPos ∧
    deliveryHandler none tailStateEx = tailStateEx ∧
    (deliveryHandler none tailStateEx).readPos ≠ tailStateEx.endPos := by
  refine ⟨by decide, by decide, rfl, by decide⟩

/-- C5 amended: after a successful delivery the tail check runs; it forces the
read position (and matching virtuals, and the confirmed fields, closing the
file and setting `needSync`) exactly when *both* components of `readPos` are
at least those of `endPos` and `readPos ≠ endPos` — not for every state that
is lexicographically beyond the end; in every other state, and after a failed
delivery, the state is unchanged. -/
theorem checkTailCorruption_spec (s : ReaderState) :
    (s.endPos.fileNum ≤ s.readPos.fileNum → s.endPos.pos ≤ s.readPos.pos →
      s.readPos ≠ s.endPos →
      deliveryHandler none s =
        { s with readPos := s.endPos, virtualReadOffset := s.virtualEnd,
                 confirmedOffset := s.endPos,
                 virtualConfirmedOffset := s.virtualEnd,
                 needSync := true, readFileOpen := false }) ∧
    ((s.readPos.fileNum < s.endPos.fileNum ∨ s.readPos.pos < s.endPos.pos ∨
        s.readPos = s.endPos) →
      deliveryHandler none s = s) ∧
    (∀ rerr, rerr ≠ none → deliveryHandler rerr s = s) := by
  refine ⟨?_, ?_, ?_⟩
  · intro h1 h2 h3
    show checkTailCorruption s = _
    unfold checkTailCorruption
    rw [if_neg (by omega), if_pos h3]
    rfl
  · intro h
    show checkTailCorruption s = s
    unfold checkTailCorruption
    rcases h with h | h | h
    · rw [if_pos (Or.inl h)]
    · rw [if_pos (Or.inr h)]
    · by_cases hc : s.readPos.fileNum < s.endPos.fileNum ∨ s.readPos.pos < s.endPos.pos
      · rw [if_pos hc]
      · rw [if_neg hc, if_neg (not_not_intro h)]
  · intro rerr hr
    unfold deliveryHandler
    rw [if_neg hr]

/-- C5 witness for the amended claim: with `readPos = (2,5)` beyond
`endPos = (1,3)` in both components, the check forces the read and confirmed
positions to the end. -/
theorem checkTailCorruption_spec_witness :
    deliveryHandler none tailStateEx2 =
      { tailStateEx2 with readPos := tailStateEx2.endPos,
                          virtualReadOffset := tailStateEx2.virtualEnd,
                          confirmedOffset := tailStateEx2.endPos,
                          virtualConfirmedOffset := tailStateEx2.virtualEnd,
                          needSync := true, readFileOpen := false } :=
  (checkTailCorruption_spec tailStateEx2).1 (by decide) (by decide) (by decide)

/-- The net effect of the sequential clamping in the queue-end update on the
read position. -/
theorem updateQueueEnd_readPos (s : ReaderState) (count : Int)
    (e : diskQueueEndInfo) :
    ((updateQueueEndHandler s count e).1).readPos =
      if s.readPos.fileNum > e.endFileNum then ⟨e.endFileNum, e.endPos⟩
      else if s.readPos.fileNum = e.endFileNum ∧ s.readPos.pos > e.endPos then
        ⟨s.readPos.fileNum, e.endPos⟩
      else s.readPos := by
  unfold updateQueueEndHandler
  try dsimp only
  by_cases hA : s.endPos.fileNum ≠ e.endFileNum ∧ e.endPos = 0
  · simp only [if_pos hA]
    try dsimp only
    by_cases hB : s.readPos.fileNum > e.endFileNum
    · simp only [if_pos hB]
      simp
    · simp only [if_neg hB]
      try dsimp only
      by_cases hC : s.readPos.fileNum = e.endFileNum ∧ s.readPos.pos > e.endPos
      · simp only [if_pos hC]
      · simp only [if_neg hC]
  · simp only [if_neg hA]
    by_cases hB : s.readPos.fileNum > e.endFileNum
    · simp only [if_pos hB]
      simp
    · simp only [if_neg hB]
      try dsimp only
      by_cases hC : s.readPos.fileNum = e.endFileNum ∧ s.readPos.pos > e.endPos
      · simp only [if_pos hC]
      · simp only [if_neg hC]

/-- The queue-end update's effect on `needSync`. -/
theorem updateQueueEnd_needSync (s : ReaderState) (count : Int)
    (e : diskQueueEndInfo) :
    ((updateQueueEndHandler s count e).1).needSync =
      if s.endPos.fileNum ≠ e.endFileNum ∧ e.endPos = 0 then true
      else s.needSync := by
  unfold updateQueueEndHandler
  try dsimp only
  by_cases hA : s.endPos.fileNum ≠ e.endFileNum ∧ e.endPos = 0
  · simp only [if_pos hA]
    try dsimp only
    by_cases hB : s.readPos.fileNum > e.endFileNum
    · simp only [if_pos hB]
      simp
    · simp only [if_neg hB]
      try dsimp only
      by_cases hC : s.readPos.fileNum = e.endFileNum ∧ s.readPos.pos > e.endPos
      · simp only [if_pos hC]
      · simp only [if_neg hC]
  · simp only [if_neg hA]
    by_cases hB : s.readPos.fileNum > e.endFileNum
    · simp only [if_pos hB]
      simp
    · simp only [if_neg hB]
      try dsimp only
      by_cases hC : s.readPos.fileNum = e.endFileNum ∧ s.readPos.pos > e.endPos
      · simp only [if_pos hC]
      · simp only [if_neg hC]

/-- C6: the queue-end update installs `endPos = (e.endFile, e.endPos)`,
`virtualEnd` and `totalMsgCnt`; the read position is clamped so that
`readPos ≤ endPos` (lexicographically) holds after every end update; and
`needSync` is set when the end file differs from the previous `endPos.fileNum`
and the new end position is 0. -/
theorem updateQueueEnd_spec (s : ReaderState) (count : Int)
    (e : diskQueueEndInfo) :
    ((updateQueueEndHandler s count e).1).endPos = ⟨e.endFileNum, e.endPos⟩ ∧
    ((updateQueueEndHandler s count e).1).virtualEnd = e.virtualEnd ∧
    ((updateQueueEndHandler s count e).1).totalMsgCnt = e.totalMsgCnt ∧
    lexLe ((updateQueueEndHandler s count e).1).readPos
      ((updateQueueEndHandler s count e).1).endPos ∧
    (s.endPos.fileNum ≠ e.endFileNum → e.endPos = 0 →
      ((updateQueueEndHandler s count e).1).needSync = true) := by
  refine ⟨rfl, rfl, rfl, ?_, ?_⟩
  · have hend : ((updateQueueEndHandler s count e).1).endPos =
        ⟨e.endFileNum, e.endPos⟩ := rfl
    rw [hend, updateQueueEnd_readPos]
    by_cases hB : s.readPos.fileNum > e.endFileNum
    · rw [if_pos hB]
      unfold lexLe
      dsimp only
      omega
    · rw [if_neg hB]
      by_cases hC : s.readPos.fileNum = e.endFileNum ∧ s.readPos.pos > e.endPos
      · rw [if_pos hC]
        unfold lexLe
        dsimp only
        omega
      · rw [if_neg hC]
        unfold lexLe
        dsimp only
        omega
  · intro h1 h2
    rw [updateQueueEnd_needSync, if_pos ⟨h1, h2⟩]

/-- C6 witness: an end update to file 1 at position 0 clamps nothing but sets
`needSync` (fresh file boundary). -/
theorem updateQueueEnd_spec_witness :
    ((updateQueueEndHandler zeroReaderState 0 ⟨1, 0, 7, 3⟩).1).needSync = true :=
  (updateQueueEnd_spec zeroReaderState 0 ⟨1, 0, 7, 3⟩).2.2.2.2 (by decide)
    (by decide)

/-- C7: persisting metadata and retrieving it into a freshly constructed
reader reproduces `totalMsgCnt`, `confirmedOffset`, `virtualConfirmedOffset`,
`endPos` and `virtualEnd`, and seeds `readPos = confirmedOffset` and
`virtualReadOffset = virtualConfirmedOffset`. -/
theorem metaData_roundtrip (s : ReaderState) (rf mn dp : String)
    (mbpf mms mxs se st : Int) (ask : Bool) :
    ((newDiskQueueReader rf mn dp mbpf mms mxs se st ask
        (some (persistMetaData s))).2).totalMsgCnt = s.totalMsgCnt ∧
    ((newDiskQueueReader rf mn dp mbpf mms mxs se st ask
        (some (persistMetaData s))).2).confirmedOffset = s.confirmedOffset ∧
    ((newDiskQueueReader rf mn dp mbpf mms mxs se st ask
        (some (persistMetaData s))).2).virtualConfirmedOffset =
      s.virtualConfirmedOffset ∧
    ((newDiskQueueReader rf mn dp mbpf mms mxs se st ask
        (some (persistMetaData s))).2).endPos = s.endPos ∧
    ((newDiskQueueReader rf mn dp mbpf mms mxs se st ask
        (some (persistMetaData s))).2).virtualEnd = s.virtualEnd ∧
    ((newDiskQueueReader rf mn dp mbpf mms mxs se st ask
        (some (persistMetaData s))).2).readPos =
      ((newDiskQueueReader rf mn dp mbpf mms mxs se st ask
        (some (persistMetaData s))).2).confirmedOffset ∧
    ((newDiskQueueReader rf mn dp mbpf mms mxs se st ask
        (some (persistMetaData s))).2).virtualReadOffset =
      ((newDiskQueueReader rf mn dp mbpf mms mxs se st ask
        (some (persistMetaData s))).2).virtualConfirmedOffset :=
  ⟨rfl, rfl, rfl, rfl, rfl, rfl, rfl⟩

/-- C8: `internalSkipTo` always closes the data file; a target beyond
`virtualEnd` fails with `ErrMoveOffsetInvalid` leaving every offset field
unchanged; a target equal to `virtualEnd` moves `readPos` to `endPos`;
otherwise the read position is stepped by `v - virtualReadOffset` bounded by
`endPos`, on success setting `virtualReadOffset = v` and the confirmed fields
to the read fields, on step failure returning the step error with no offset
change; and the `ioLoop` skip case clears the held read error. -/
theorem internalSkipTo_spec (fs : FS) (s : ReaderState) (v : Int) :
    ((internalSkipTo fs s v).2).readFileOpen = false ∧
    (s.virtualEnd < v →
      internalSkipTo fs s v =
        (some .moveOffsetInvalid, { s with readFileOpen := false })) ∧
    (v = s.virtualEnd →
      internalSkipTo fs s v =
        (none, { s with readFileOpen := false, readPos := s.endPos,
                        virtualReadOffset := v, confirmedOffset := s.endPos,
                        virtualConfirmedOffset := v })) ∧
    (v < s.virtualEnd →
      (∀ y, stepOffset fs s.readPos (v - s.virtualReadOffset) s.endPos = .ok y →
        internalSkipTo fs s v =
          (none, { s with readFileOpen := false, readPos := y,
                          virtualReadOffset := v, confirmedOffset := y,
                          virtualConfirmedOffset := v })) ∧
      (∀ e, stepOffset fs s.readPos (v - s.virtualReadOffset) s.endPos = .error e →
        internalSkipTo fs s v = (some e, { s with readFileOpen := false }))) ∧
    (∀ rerr, (skipHandler fs s v rerr).2.2 = none) := by
  refine ⟨?_, ?_, ?_, ?_, fun _ => rfl⟩
  · unfold internalSkipTo
    by_cases h1 : v > s.virtualEnd
    · rw [if_pos h1]
    · rw [if_neg h1]
      by_cases h2 : v = s.virtualEnd
      · rw [if_pos h2]
      · rw [if_neg h2]
        cases hstep : stepOffset fs s.readPos (v - s.virtualReadOffset) s.endPos with
        | error e => rfl
        | ok y => rfl
  · intro h1
    unfold internalSkipTo
    rw [if_pos (show v > s.virtualEnd from h1)]
  · intro h2
    unfold internalSkipTo
    rw [if_neg (by dsimp only; omega), if_pos h2]
  · intro h3
    constructor
    · intro y hstep
      unfold internalSkipTo
      rw [if_neg (by dsimp only; omega), if_neg (by dsimp only; omega), hstep]
    · intro e hstep
      unfold internalSkipTo
      rw [if_neg (by dsimp only; omega), if_neg (by dsimp only; omega), hstep]

/-- C8 witness: skipping to virtual offset 5 with queue end `(0,10)`/10 steps
the read position to `(0,5)` and drags the confirmed fields along. -/
theorem internalSkipTo_spec_witness :
    internalSkipTo fsEx skipStateEx 5 =
      (none, { skipStateEx with readFileOpen := false, readPos := ⟨0, 5⟩,
                                virtualReadOffset := 5,
                                confirmedOffset := ⟨0, 5⟩,
                                virtualConfirmedOffset := 5 }) :=
  ((internalSkipTo_spec fsEx skipStateEx 5).2.2.2.1 (by decide)).1 ⟨0, 5⟩ rfl

/-- C9 counterexample: `UpdateQueueEnd` invoked after the exit flag is set
returns silently — it produces no "exiting" error (it has no error return at
all), contradicting the claim that every public operation fails with an
"exiting" error after exit. -/
theorem updateQueueEnd_after_exit_silent :
    exitStateEx.exitFlag = true ∧
    (updateQueueEndGate exitStateEx ⟨0, 0, 0, 0⟩).1 = .silentReturn ∧
    (updateQueueEndGate exitStateEx ⟨0, 0, 0, 0⟩).1 ≠ .exiting := by
  refine ⟨rfl, rfl, by decide⟩

/-- C9 amended: after the exit flag is set, `ConfirmRead`, `SkipReadToOffset`
and `SkipToEnd` fail immediately with the "exiting" error, while
`UpdateQueueEnd` returns silently without reporting an error; none of the
four is handed to the engine and none changes the reader state. -/
theorem publicGates_after_exit (s : ReaderState) (offset voffset : Int)
    (e : diskQueueEndInfo) (h : s.exitFlag = true) :
    confirmReadGate s offset = (.exiting, s) ∧
    skipReadToOffsetGate s voffset = (.exiting, s) ∧
    skipToEndGate s = (.exiting, s) ∧
    updateQueueEndGate s e = (.silentReturn, s) := by
  unfold confirmReadGate skipReadToOffsetGate skipToEndGate updateQueueEndGate
  rw [h]
  exact ⟨rfl, rfl, rfl, rfl⟩

/-- C9 witness for the amended claim. -/
theorem publicGates_after_exit_witness :
    confirmReadGate exitStateEx 0 = (.exiting, exitStateEx) :=
  (publicGates_after_exit exitStateEx 0 0 ⟨0, 0, 0, 0⟩ rfl).1

/-- C10: whatever arguments are supplied to `newDiskQueueReader`, the confirm
window of the resulting reader is the hard-coded 10000 bytes. -/
theorem newDiskQueueReader_maxConfirmWin (rf mn dp : String)
    (mbpf mms mxs se st : Int) (ask : Bool) (meta : Option MetaData) :
    ((newDiskQueueReader rf mn dp mbpf mms mxs se st ask meta).2).maxConfirmWin
      = 10000 := by
  cases meta <;> rfl

/-- Core additivity of the step loop.  The first run (fuel `F₁`) from `o`
consumes `n` and stops at `y`; the second run restarts from `y` with the
per-call constant `decide (y.fileNum < maxStep.fileNum)`; the one-shot run
consumes `n + m` with the first run's constant `u`.  Whenever all three
succeed, the one-shot result equals the second run's result. -/
theorem stepOffsetLoop_add (fs : FS) (maxStep : diskQueueOffset) (u : Bool)
    (m : Int) (F₂ : Nat) (y z : diskQueueOffset) (hm : 0 < m)
    (h2 : stepOffsetLoop fs (decide (y.fileNum < maxStep.fileNum)) maxStep F₂ y
      m = .ok z) :
    ∀ (F₁ : Nat) (o : diskQueueOffset) (n : Int) (F₃ : Nat)
      (w : diskQueueOffset),
      0 < n → o.fileNum ≤ maxStep.fileNum →
      (o.fileNum < maxStep.fileNum → u = true) →
      stepOffsetLoop fs u maxStep F₁ o n = .ok y →
      stepOffsetLoop fs u maxStep F₃ o (n + m) = .ok w →
      w = z := by
  intro F₁
  induction F₁ with
  | zero =>
    intro o n F₃ w hn hof hu h1 h3
    simp [stepOffsetLoop] at h1
  | succ F₁ ih =>
    intro o n F₃ w hn hof hu h1 h3
    cases F₃ with
    | zero => simp [stepOffsetLoop] at h3
    | succ F₃ =>
    simp only [stepOffsetLoop] at h1 h3
    cases hE : fileEndFor fs u maxStep o with
    | error e =>
      rw [hE] at h1
      exact absurd h1 (by simp)
    | ok endSize =>
      rw [hE] at h1 h3
      dsimp only at h1 h3
      by_cases hlt : endSize - o.pos < n
      · -- the first run rolls; so does the one-shot run, in lockstep
        rw [if_pos hlt] at h1
        rw [if_pos (show endSize - o.pos < n + m by omega)] at h3
        by_cases hgt : ((⟨o.fileNum + 1, 0⟩ : diskQueueOffset).greatThan
            maxStep) = true
        · rw [if_pos hgt] at h1
          exact absurd h1 (by simp)
        · rw [if_neg hgt] at h1 h3
          rw [if_neg (show ¬(n - (endSize - o.pos) = 0) by omega)] at h1
          rw [if_neg (show ¬(n + m - (endSize - o.pos) = 0) by omega)] at h3
          rw [show n + m - (endSize - o.pos) = n - (endSize - o.pos) + m from
            by ring] at h3
          have hof' := ((greatThan_false_iff _ _).mp
            (bool_false_of_not_true hgt)).1
          exact ih ⟨o.fileNum + 1, 0⟩ (n - (endSize - o.pos)) F₃ w (by omega)
            hof' (fun hlt' => hu (by dsimp only at hlt'; omega)) h1 h3
      · -- the first run stops here at y
        rw [if_neg hlt] at h1
        by_cases hgt1 : ((⟨o.fileNum, o.pos + n⟩ : diskQueueOffset).greatThan
            maxStep) = true
        · rw [if_pos hgt1] at h1
          exact absurd h1 (by simp)
        · rw [if_neg hgt1] at h1
          have hy : y = ⟨o.fileNum, o.pos + n⟩ := (Except.ok.inj h1).symm
          subst hy
          cases F₂ with
          | zero => simp [stepOffsetLoop] at h2
          | succ F₂ =>
          simp only [stepOffsetLoop] at h2
          dsimp only at h2
          by_cases hof2 : o.fileNum < maxStep.fileNum
          · -- same file size function feeds the second and the one-shot run
            have hu' : u = true := hu hof2
            rw [decide_eq_true hof2] at h2
            rw [show fileEndFor fs true maxStep ⟨o.fileNum, o.pos + n⟩ =
                .ok endSize from
              (fileEndFor_fileNum_congr fs true maxStep rfl).trans
                (hu' ▸ hE)] at h2
            dsimp only at h2
            by_cases hlt2 : endSize - (o.pos + n) < m
            · rw [if_pos hlt2] at h2
              rw [if_pos (show endSize - o.pos < n + m by omega)] at h3
              by_cases hgt2 : ((⟨o.fileNum + 1, 0⟩ : diskQueueOffset).greatThan
                  maxStep) = true
              · rw [if_pos hgt2] at h2
                exact absurd h2 (by simp)
              · rw [if_neg hgt2] at h2 h3
                rw [if_neg (show ¬(m - (endSize - (o.pos + n)) = 0) by
                  omega)] at h2
                rw [if_neg (show ¬(n + m - (endSize - o.pos) = 0) by
                  omega)] at h3
                rw [show n + m - (endSize - o.pos) =
                    m - (endSize - (o.pos + n)) from by ring] at h3
                rw [hu'] at h3
                exact stepOffsetLoop_det h3 h2
            · rw [if_neg hlt2] at h2
              rw [if_neg (show ¬(endSize - o.pos < n + m) by omega)] at h3
              rw [← add_assoc] at h3
              by_cases hgt2 : ((⟨o.fileNum, o.pos + n + m⟩ :
                  diskQueueOffset).greatThan maxStep) = true
              · rw [if_pos hgt2] at h2
                exact absurd h2 (by simp)
              · rw [if_neg hgt2] at h2 h3
                exact (Except.ok.inj h3).symm.trans (Except.ok.inj h2)
          · -- the runs meet in the last file: the second run is bounded by
            -- maxStep.pos, the one-shot run still stats the file
            have hfe : o.fileNum = maxStep.fileNum := by omega
            rw [decide_eq_false hof2] at h2
            rw [show fileEndFor fs false maxStep ⟨o.fileNum, o.pos + n⟩ =
              .ok maxStep.pos from rfl] at h2
            dsimp only at h2
            by_cases hlt2 : maxStep.pos - (o.pos + n) < m
            · rw [if_pos hlt2] at h2
              rw [if_pos (show ((⟨o.fileNum + 1, 0⟩ :
                  diskQueueOffset).greatThan maxStep) = true by
                unfold diskQueueOffset.greatThan
                rw [if_pos (show (⟨o.fileNum + 1, 0⟩ :
                    diskQueueOffset).fileNum > maxStep.fileNum by
                  dsimp only; omega)])] at h2
              exact absurd h2 (by simp)
            · rw [if_neg hlt2] at h2
              by_cases hgt2 : ((⟨o.fileNum, o.pos + n + m⟩ :
                  diskQueueOffset).greatThan maxStep) = true
              · rw [if_pos hgt2] at h2
                exact absurd h2 (by simp)
              · rw [if_neg hgt2] at h2
                by_cases hlt3 : endSize - o.pos < n + m
                · rw [if_pos hlt3] at h3
                  rw [if_pos (show ((⟨o.fileNum + 1, 0⟩ :
                      diskQueueOffset).greatThan maxStep) = true by
                    unfold diskQueueOffset.greatThan
                    rw [if_pos (show (⟨o.fileNum + 1, 0⟩ :
                        diskQueueOffset).fileNum > maxStep.fileNum by
                      dsimp only; omega)])] at h3
                  exact absurd h3 (by simp)
                · rw [if_neg hlt3] at h3
                  rw [← add_assoc] at h3
                  rw [if_neg hgt2] at h3
                  exact (Except.ok.inj h3).symm.trans (Except.ok.inj h2)

/-- C3: `stepOffset` is additive — for non-negative byte counts `n` and `m`,
whenever `step(step(x, n, max), m, max)` and `step(x, n + m, max)` are both
defined they return the same file offset. -/
theorem stepOffset_additive (fs : FS) (x maxStep y z w : diskQueueOffset)
    (n m : Int) (hn : 0 ≤ n) (hm : 0 ≤ m)
    (h1 : stepOffset fs x n maxStep = .ok y)
    (h2 : stepOffset fs y m maxStep = .ok z)
    (h3 : stepOffset fs x (n + m) maxStep = .ok w) : w = z := by
  unfold stepOffset at h1 h2 h3
  by_cases hx : x.fileNum > maxStep.fileNum
  · rw [if_pos hx] at h1
    exact absurd h1 (by simp)
  · rw [if_neg hx] at h1 h3
    by_cases hn0 : n = 0
    · subst hn0
      rw [if_pos rfl] at h1
      obtain rfl : x = y := Except.ok.inj h1
      rw [zero_add] at h3
      rw [if_neg hx] at h2
      exact Except.ok.inj (h3.symm.trans h2)
    · by_cases hm0 : m = 0
      · subst hm0
        by_cases hy : y.fileNum > maxStep.fileNum
        · rw [if_pos hy] at h2
          exact absurd h2 (by simp)
        · rw [if_neg hy, if_pos rfl] at h2
          obtain rfl : y = z := Except.ok.inj h2
          rw [add_zero] at h3
          rw [if_neg hn0] at h1 h3
          exact Except.ok.inj (h3.symm.trans h1)
      · rw [if_neg hn0] at h1
        rw [if_neg (show ¬(n + m = 0) by omega)] at h3
        by_cases hy : y.fileNum > maxStep.fileNum
        · rw [if_pos hy] at h2
          exact absurd h2 (by simp)
        · rw [if_neg hy, if_neg hm0] at h2
          exact stepOffsetLoop_add fs maxStep
            (decide (x.fileNum < maxStep.fileNum)) m _ y z (by omega) h2 _ x n
            _ w (by omega) (by omega) (fun h => decide_eq_true h) h1 h3

/-- C3 witness: with every file 20 bytes long, stepping 25 then 5 from
`(0, 0)` bounded by `(1, 10)` matches the one-shot step of 30,
both reaching `(1, 10)`. -/
theorem stepOffset_additive_witness :
    stepOffset fsEx ⟨0, 0⟩ 25 ⟨1, 10⟩ = .ok ⟨1, 5⟩ ∧
    stepOffset fsEx ⟨1, 5⟩ 5 ⟨1, 10⟩ = .ok ⟨1, 10⟩ ∧
    stepOffset fsEx ⟨0, 0⟩ (25 + 5) ⟨1, 10⟩ = .ok ⟨1, 10⟩ ∧
    (⟨1, 10⟩ : diskQueueOffset) = ⟨1, 10⟩ :=
  ⟨rfl, rfl, rfl,
    stepOffset_additive fsEx ⟨0, 0⟩ ⟨1, 10⟩ ⟨1, 5⟩ ⟨1, 10⟩ ⟨1, 10⟩ 25 5
      (by decide) (by decide) rfl rfl rfl⟩
